import Mathlib

/-!
Shallow embedding of the blackjack round engine in `src/game.js` of the
`21black-cli` repository, together with theorems checking the repository's
specification against the code.  JS numbers that only ever hold integers
(chips, bets, chip deltas) are modelled as `Int`; card totals are `Nat`;
fallible operations (drawing from a possibly-empty deck, indexing split
hands) return `Option`.
-/

namespace Blackjack

/-- Card suits, as in the `SUITS` array of `src/game.js`. -/
inductive Suit where
  | spades | hearts | diamonds | clubs
deriving DecidableEq, Repr

/-- Card ranks, as in the `RANKS` array of `src/game.js`. -/
inductive Rank where
  | two | three | four | five | six | seven | eight | nine | ten
  | jack | queen | king | ace
deriving DecidableEq, Repr

/-- Blackjack value of a rank as assigned by `createDeck`: ace is 11,
face cards are 10, number cards their face value. -/
def cardValue : Rank → Nat
  | .ace => 11
  | .jack | .queen | .king => 10
  | .two => 2
  | .three => 3
  | .four => 4
  | .five => 5
  | .six => 6
  | .seven => 7
  | .eight => 8
  | .nine => 9
  | .ten => 10

/-- Card record `\x7b suit, rank, value \x7d` of `src/game.js`; `value` is a
stored field on the JS object, so it is a field here as well. -/
structure Card where
  suit : Suit
  rank : Rank
  value : Nat
deriving DecidableEq, Repr

/-- Builds the card `createDeck` would build for a (suit, rank) pair. -/
def mkCard (s : Suit) (r : Rank) : Card :=
  { suit := s, rank := r, value := cardValue r }

/-- Result record of `calculateHandTotal`. -/
structure HandValue where
  total : Nat
  soft : Bool
deriving DecidableEq, Repr

/-- Sum of the `value` fields, the first loop of `calculateHandTotal`. -/
def sumValues (cards : List Card) : Nat :=
  cards.foldl (fun t c => t + c.value) 0

/-- Number of aces in the hand, counted by the first loop of
`calculateHandTotal`. -/
def countAces (cards : List Card) : Nat :=
  cards.countP (fun c => c.rank == Rank.ace)

/-- The `while (total > 21 && aces > 0)` demotion loop of
`calculateHandTotal`; recursion on the remaining ace count. -/
def demoteLoop (t : Nat) : Nat → Nat × Nat
  | 0 => (t, 0)
  | a + 1 => if 21 < t then demoteLoop (t - 10) a else (t, a + 1)

/-- Embedding of `calculateHandTotal` from `src/game.js`. -/
def calculateHandTotal (cards : List Card) : HandValue :=
  let p := demoteLoop (sumValues cards) (countAces cards)
  { total := p.1, soft := decide (0 < p.2) }

/-- Number of ace demotions the loop performs when started on sum `t` with
`a` aces: zero if the sum is already at most 21, otherwise one per needed
subtraction of 10, capped by the ace count. -/
def demotions (t a : Nat) : Nat :=
  min a (if t ≤ 21 then 0 else (t - 12) / 10)

/-- Closed form of the demotion loop. -/
theorem demoteLoop_eq (a t : Nat) :
    demoteLoop t a = (t - 10 * demotions t a, a - demotions t a) := by
  induction a generalizing t with
  | zero => simp [demoteLoop, demotions]
  | succ a ih =>
    rw [demoteLoop]
    by_cases h : 21 < t
    · rw [if_pos h, ih]
      unfold demotions
      split_ifs <;> simp [Prod.ext_iff] <;> omega
    · rw [if_neg h]
      unfold demotions
      rw [if_pos (by omega)]
      simp

/-- Four aces of the four suits, the edge case named by the spec. -/
def fourAces : List Card :=
  [mkCard .spades .ace, mkCard .hearts .ace,
   mkCard .diamonds .ace, mkCard .clubs .ace]

/-- C1: `calculateHandTotal` returns the sum of the card values with one
ace demoted from 11 to 1 (minus 10) repeatedly while the total exceeds 21
and an undemoted ace remains — i.e. `demotions` many times — and `soft` is
true iff an ace is still counted as 11 afterwards; the empty hand gives
total 0 / soft false, and four aces give total 14 / soft true. -/
theorem calculateHandTotal_spec :
    (∀ cards : List Card,
      calculateHandTotal cards =
        { total := sumValues cards -
            10 * demotions (sumValues cards) (countAces cards),
          soft := decide
            (0 < countAces cards -
              demotions (sumValues cards) (countAces cards)) }) ∧
    calculateHandTotal [] = { total := 0, soft := false } ∧
    calculateHandTotal fourAces = { total := 14, soft := true } := by
  refine ⟨fun cards => ?_, by decide, by decide⟩
  unfold calculateHandTotal
  rw [demoteLoop_eq]

/-- Game phases, the string values the JS code stores in `state.phase`. -/
inductive Phase where
  | welcome | betting | playing | dealerTurn | result | gameOver
deriving DecidableEq, Repr

/-- Outcome strings stored in `result.outcome`. -/
inductive Outcome where
  | win | lose | push | bust | blackjack | split
deriving DecidableEq, Repr

/-- Result record `\x7b outcome, message, chipChange \x7d` attached to a
settled round or split hand. -/
structure HandResult where
  outcome : Outcome
  message : String
  chipChange : Int
deriving DecidableEq, Repr

/-- Status strings of a split hand. -/
inductive SplitStatus where
  | playing | stand | bust
deriving DecidableEq, Repr

/-- One split hand: `\x7b cards, bet, status, result? \x7d`; `result` is
attached only by `settleSplitRound`. -/
structure SplitHand where
  cards : List Card
  bet : Int
  status : SplitStatus
  result : Option HandResult
deriving DecidableEq, Repr

/-- Session statistics record of `createGameState`. -/
structure Stats where
  handsPlayed : Nat
  handsWon : Nat
  handsLost : Nat
  handsPushed : Nat
  blackjacks : Nat
  peakChips : Int
deriving DecidableEq, Repr

/-- The round state object of `src/game.js`.  `splitHands` is `undefined`
until a split happens, modelled as `Option`. -/
structure GameState where
  deck : List Card
  playerHand : List Card
  dealerHand : List Card
  chips : Int
  bet : Int
  phase : Phase
  splitHands : Option (List SplitHand)
  activeHandIndex : Nat
  result : Option HandResult
  reshuffled : Bool
  stats : Stats
deriving DecidableEq, Repr

/-- Embedding of `createGameState`. -/
def createGameState : GameState :=
  { deck := [], playerHand := [], dealerHand := [],
    chips := 1000, bet := 0, phase := Phase.welcome,
    splitHands := none, activeHandIndex := 0, result := none,
    reshuffled := false,
    stats := { handsPlayed := 0, handsWon := 0, handsLost := 0,
               handsPushed := 0, blackjacks := 0, peakChips := 1000 } }

/-- JS `deck.pop()`: removes and returns the last element; `none` models
the `undefined` (and subsequent crash) of popping an empty array. -/
def popCard (deck : List Card) : Option (Card × List Card) :=
  match deck.getLast? with
  | none => none
  | some c => some (c, deck.dropLast)

/-- Embedding of the private `isBlackjack` helper. -/
def isBlackjack (hand : List Card) : Bool :=
  hand.length == 2 && (calculateHandTotal hand).total == 21

/-- JS `Math.round(bet * 1.5)` for an integer `bet`: rounding half toward
positive infinity gives `⌊(bet * 1.5) + 1/2⌋ = ⌊(3 * bet + 1) / 2⌋`. -/
def bjPayout (bet : Int) : Int :=
  Int.fdiv (3 * bet + 1) 2

/-- Embedding of `checkForBlackjack`. -/
def checkForBlackjack (s : GameState) : GameState :=
  let playerBJ := isBlackjack s.playerHand
  let dealerBJ := isBlackjack s.dealerHand
  if !playerBJ && !dealerBJ then s
  else
    let stats0 := { s.stats with handsPlayed := s.stats.handsPlayed + 1 }
    if playerBJ && dealerBJ then
      let newChips := s.chips + s.bet
      { s with
        phase := Phase.result, chips := newChips,
        stats := { stats0 with
                   handsPushed := stats0.handsPushed + 1,
                   peakChips := max stats0.peakChips newChips },
        result := some ⟨Outcome.push, "Both have Blackjack — Push!", 0⟩ }
    else if playerBJ then
      let payout := bjPayout s.bet
      let newChips := s.chips + s.bet + payout
      { s with
        phase := Phase.result, chips := newChips,
        stats := { stats0 with
                   handsWon := stats0.handsWon + 1,
                   blackjacks := stats0.blackjacks + 1,
                   peakChips := max stats0.peakChips newChips },
        result := some ⟨Outcome.blackjack, "BLACKJACK!", payout⟩ }
    else
      { s with
        phase := Phase.result,
        stats := { stats0 with handsLost := stats0.handsLost + 1 },
        result := some ⟨Outcome.lose, "Dealer has Blackjack!", -s.bet⟩ }

/-- Embedding of `playerHit`. -/
def playerHit (s : GameState) : Option GameState := do
  let (card, deck) ← popCard s.deck
  let playerHand := s.playerHand ++ [card]
  let total := (calculateHandTotal playerHand).total
  if 21 < total then
    pure { s with
      deck := deck, playerHand := playerHand,
      phase := Phase.result,
      result := some ⟨Outcome.bust, "BUST!", -s.bet⟩,
      stats := { s.stats with
                 handsPlayed := s.stats.handsPlayed + 1,
                 handsLost := s.stats.handsLost + 1 } }
  else if total = 21 then
    pure { s with
      deck := deck, playerHand := playerHand,
      phase := Phase.dealerTurn }
  else
    pure { s with deck := deck, playerHand := playerHand }

/-- Embedding of `playerStand`. -/
def playerStand (s : GameState) : GameState :=
  { s with phase := Phase.dealerTurn }

/-- Embedding of `playerDouble`. -/
def playerDouble (s : GameState) : Option GameState := do
  let (card, deck) ← popCard s.deck
  let playerHand := s.playerHand ++ [card]
  let newBet := s.bet * 2
  let newChips := s.chips - s.bet
  let total := (calculateHandTotal playerHand).total
  if 21 < total then
    pure { s with
      deck := deck, playerHand := playerHand,
      bet := newBet, chips := newChips, phase := Phase.result,
      result := some ⟨Outcome.bust, "BUST!", -newBet⟩,
      stats := { s.stats with
                 handsPlayed := s.stats.handsPlayed + 1,
                 handsLost := s.stats.handsLost + 1 } }
  else
    pure { s with
      deck := deck, playerHand := playerHand,
      bet := newBet, chips := newChips, phase := Phase.dealerTurn }

/-- Embedding of `isDealerDone`. -/
def isDealerDone (s : GameState) : Bool :=
  decide (17 ≤ (calculateHandTotal s.dealerHand).total)

/-- Embedding of `dealerDrawOne`. -/
def dealerDrawOne (s : GameState) : Option GameState := do
  let (card, deck) ← popCard s.deck
  pure { s with deck := deck, dealerHand := s.dealerHand ++ [card] }

/-- Model of `Number(x).toFixed(1)` for the nonnegative values produced
here, with JS float arithmetic idealised as exact rational arithmetic:
round to the nearest tenth, ties toward the larger value. -/
def formatFixed1 (q : ℚ) : String :=
  let n : Nat := (⌊10 * q + 1 / 2⌋).toNat
  toString (n / 10) ++ "." ++ toString (n % 10)

/-- Embedding of `getWinRate`. -/
def getWinRate (stats : Stats) : String :=
  if stats.handsPlayed = 0 then "0.0"
  else formatFixed1 ((stats.handsWon : ℚ) / (stats.handsPlayed : ℚ) * 100)

/-- Embedding of the private `settleOneHand` helper of `src/game.js`. -/
def settleOneHand (playerTotal : Nat) (playerBust : Bool)
    (dealerTotal : Nat) (bet : Int) : HandResult :=
  if playerBust then ⟨Outcome.lose, "Bust!", -bet⟩
  else if 21 < dealerTotal then ⟨Outcome.win, "Dealer busts!", bet⟩
  else if dealerTotal < playerTotal then ⟨Outcome.win, "You win!", bet⟩
  else if playerTotal < dealerTotal then ⟨Outcome.lose, "Dealer wins.", -bet⟩
  else ⟨Outcome.push, "Push!", 0⟩

/-- Accumulator threaded through the `map` of `settleSplitRound`, which in
the JS mutates `stats`, `newChips` and `totalChipChange` as side effects. -/
structure SettleAcc where
  stats : Stats
  chips : Int
  delta : Int
  hands : List SplitHand
deriving Repr

/-- One iteration of the `settleSplitRound` loop over the split hands. -/
def settleSplitStep (dealerTotal : Nat) (acc : SettleAcc)
    (hand : SplitHand) : SettleAcc :=
  let playerTotal := (calculateHandTotal hand.cards).total
  let playerBust := hand.status == SplitStatus.bust
  let r := settleOneHand playerTotal playerBust dealerTotal hand.bet
  let stats1 := { acc.stats with handsPlayed := acc.stats.handsPlayed + 1 }
  let stats2 :=
    if r.outcome == Outcome.win then
      { stats1 with handsWon := stats1.handsWon + 1 }
    else if r.outcome == Outcome.lose then
      { stats1 with handsLost := stats1.handsLost + 1 }
    else
      { stats1 with handsPushed := stats1.handsPushed + 1 }
  let chips :=
    if r.outcome == Outcome.win then acc.chips + hand.bet + hand.bet
    else if r.outcome == Outcome.lose then acc.chips
    else acc.chips + hand.bet
  { stats := stats2, chips := chips, delta := acc.delta + r.chipChange,
    hands := acc.hands ++ [{ hand with result := some r }] }

/-- Embedding of the private `settleSplitRound`.  Its only caller,
`settleRound`, guarantees `splitHands` is present; the `none` branch is the
crash path of the JS and is never reached. -/
def settleSplitRound (s : GameState) : GameState :=
  match s.splitHands with
  | none => s
  | some hs =>
    let dealerTotal := (calculateHandTotal s.dealerHand).total
    let acc := hs.foldl (settleSplitStep dealerTotal)
      { stats := s.stats, chips := s.chips, delta := 0, hands := [] }
    { s with
      phase := Phase.result, chips := acc.chips,
      splitHands := some acc.hands,
      stats := { acc.stats with
                 peakChips := max acc.stats.peakChips acc.chips },
      result := some ⟨Outcome.split, "Split results", acc.delta⟩ }

/-- Embedding of `settleRound` (the `part_002` version, which dispatches
to `settleSplitRound` when split hands exist). -/
def settleRound (s : GameState) : GameState :=
  match s.splitHands with
  | some _ => settleSplitRound s
  | none =>
    let playerTotal := (calculateHandTotal s.playerHand).total
    let dealerTotal := (calculateHandTotal s.dealerHand).total
    let stats0 := { s.stats with handsPlayed := s.stats.handsPlayed + 1 }
    if 21 < dealerTotal then
      let newChips := s.chips + s.bet + s.bet
      { s with
        phase := Phase.result, chips := newChips,
        stats := { stats0 with
                   handsWon := stats0.handsWon + 1,
                   peakChips := max stats0.peakChips newChips },
        result := some ⟨Outcome.win, "Dealer busts!", s.bet⟩ }
    else if dealerTotal < playerTotal then
      let newChips := s.chips + s.bet + s.bet
      { s with
        phase := Phase.result, chips := newChips,
        stats := { stats0 with
                   handsWon := stats0.handsWon + 1,
                   peakChips := max stats0.peakChips newChips },
        result := some ⟨Outcome.win, "You win!", s.bet⟩ }
    else if playerTotal < dealerTotal then
      { s with
        phase := Phase.result, chips := s.chips,
        stats := { stats0 with
                   handsLost := stats0.handsLost + 1,
                   peakChips := max stats0.peakChips s.chips },
        result := some ⟨Outcome.lose, "Dealer wins.", -s.bet⟩ }
    else
      let newChips := s.chips + s.bet
      { s with
        phase := Phase.result, chips := newChips,
        stats := { stats0 with
                   handsPushed := stats0.handsPushed + 1,
                   peakChips := max stats0.peakChips newChips },
        result := some ⟨Outcome.push, "Push!", 0⟩ }

/-- JS number passed to `placeBet`: NaN, an infinity, or a finite value
(idealised as a rational, which is exact for every value the CLI can
produce from user input). -/
inductive JSNum where
  | nan
  | posInf
  | negInf
  | num (q : ℚ)
deriving DecidableEq, Repr

/-- JS `Number.isInteger`: false on NaN and the infinities, else integer
test. -/
def jsIsInteger : JSNum → Bool
  | JSNum.num q => q.den == 1
  | _ => false

/-- Return value of `placeBet`: either `\x7b valid:false, error \x7d` with no
new state, or `\x7b valid:true, state \x7d`. -/
inductive BetResult where
  | invalid (error : String)
  | valid (state : GameState)
deriving DecidableEq, Repr

/-- Embedding of `placeBet`.  The JS guard `!Number.isInteger(amount) ||
amount <= 0` short-circuits, so the comparisons run only on finite
integers. -/
def placeBet (s : GameState) (amount : JSNum) : BetResult :=
  match amount with
  | JSNum.num q =>
    if q.den ≠ 1 ∨ q ≤ 0 then
      BetResult.invalid "Bet must be a whole number greater than zero."
    else if q < 10 then
      BetResult.invalid "Minimum bet is $10."
    else if 500 < q then
      BetResult.invalid "Maximum bet is $500."
    else if (s.chips : ℚ) < q then
      BetResult.invalid ("You only have $" ++ toString s.chips ++
        ". Bet must be within your chip count.")
    else
      BetResult.valid { s with
        bet := q.num, chips := s.chips - q.num, phase := Phase.playing }
  | _ => BetResult.invalid "Bet must be a whole number greater than zero."

/-- Embedding of `checkGameOver`. -/
def checkGameOver (s : GameState) : GameState :=
  if s.chips < 10 then { s with phase := Phase.gameOver } else s

/-- Embedding of `playerSplit`.  The two deck pops and the two hand reads
are the JS crash points, modelled as `Option`. -/
def playerSplit (s : GameState) : Option GameState := do
  let (card1, deck1) ← popCard s.deck
  let (card2, deck2) ← popCard deck1
  let c1 ← s.playerHand.get? 0
  let c2 ← s.playerHand.get? 1
  let isAceSplit := c1.rank == Rank.ace
  let st : SplitStatus :=
    if isAceSplit then SplitStatus.stand else SplitStatus.playing
  let splitHands : List SplitHand :=
    [{ cards := [c1, card1], bet := s.bet, status := st, result := none },
     { cards := [c2, card2], bet := s.bet, status := st, result := none }]
  pure { s with
    deck := deck2, chips := s.chips - s.bet,
    splitHands := some splitHands, activeHandIndex := 0,
    phase := if isAceSplit then Phase.dealerTurn else Phase.playing }

/-- Indexed scan of JS `findIndex`, returning the first index whose
element satisfies the predicate, `none` instead of `-1`. -/
def findIdxFrom (p : Nat → SplitHand → Bool) : Nat → List SplitHand → Option Nat
  | _, [] => none
  | i, h :: t => if p i h then some i else findIdxFrom p (i + 1) t

/-- JS `findIndex((h, i) => i > active && h.status === 'playing')`,
returning the index instead of `-1`. -/
def findNextPlaying (hs : List SplitHand) (active : Nat) : Option Nat :=
  findIdxFrom (fun i h => decide (active < i) && h.status == SplitStatus.playing) 0 hs

/-- Embedding of the private `advanceSplitHand`; its callers guarantee
`splitHands` is present. -/
def advanceSplitHand (s : GameState) : GameState :=
  match s.splitHands with
  | none => s
  | some hs =>
    if hs.all (fun h => h.status != SplitStatus.playing) then
      { s with phase := Phase.dealerTurn }
    else
      match findNextPlaying hs s.activeHandIndex with
      | some i => { s with activeHandIndex := i }
      | none => { s with phase := Phase.dealerTurn }

/-- Embedding of `splitHit`. -/
def splitHit (s : GameState) : Option GameState := do
  let (card, deck) ← popCard s.deck
  let hs ← s.splitHands
  let hand ← hs.get? s.activeHandIndex
  let newCards := hand.cards ++ [card]
  let total := (calculateHandTotal newCards).total
  let newStatus : SplitStatus :=
    if 21 < total then SplitStatus.bust
    else if total = 21 then SplitStatus.stand
    else SplitStatus.playing
  let newHand := { hand with cards := newCards, status := newStatus }
  let newSplitHands := hs.set s.activeHandIndex newHand
  if newStatus ≠ SplitStatus.playing then
    pure (advanceSplitHand { s with
      deck := deck, splitHands := some newSplitHands })
  else
    pure { s with deck := deck, splitHands := some newSplitHands }

/-- Embedding of `splitStand`. -/
def splitStand (s : GameState) : Option GameState := do
  let hand ← (← s.splitHands).get? s.activeHandIndex
  let newHand := { hand with status := SplitStatus.stand }
  let newSplitHands := (← s.splitHands).set s.activeHandIndex newHand
  pure (advanceSplitHand { s with splitHands := some newSplitHands })

/-- Availability record returned by `getAvailableActions`. -/
structure Actions where
  hit : Bool
  stand : Bool
  double : Bool
  split : Bool
  splitHit : Bool
  splitStand : Bool
  quit : Bool
deriving DecidableEq, Repr

/-- Embedding of `getAvailableActions`.  In the split branch the JS
indexes `splitHands[activeHandIndex]`, the one crash point. -/
def getAvailableActions (s : GameState) : Option Actions :=
  let playing := s.phase == Phase.playing
  let total :=
    if playing then (calculateHandTotal s.playerHand).total else 0
  match s.splitHands with
  | some hs =>
    if playing then
      (hs.get? s.activeHandIndex).map (fun activeHand =>
        let activeTotal := (calculateHandTotal activeHand.cards).total
        { hit := false, stand := false, double := false, split := false,
          splitHit := decide (activeTotal < 21) &&
            activeHand.status == SplitStatus.playing,
          splitStand := activeHand.status == SplitStatus.playing,
          quit := true })
    else
      some { hit := false, stand := false, double := false, split := false,
             splitHit := false, splitStand := false, quit := true }
  | none =>
    let pairRanks : Bool :=
      match s.playerHand with
      | [a, b] => a.rank == b.rank
      | _ => false
    some { hit := playing && decide (total < 21),
           stand := playing,
           double := playing && s.playerHand.length == 2 &&
             decide (s.bet ≤ s.chips),
           split := playing && pairRanks && decide (s.bet ≤ s.chips),
           splitHit := false, splitStand := false, quit := true }

/-- Embedding of `dealInitialCards`.  The JS reshuffle draws a fresh
shuffled 52-card deck from `Math.random`; the replacement deck is passed
here as the `fresh` parameter, leaving the randomness external. -/
def dealInitialCards (fresh : List Card) (s : GameState) :
    Option GameState := do
  let deck0 := if s.deck.length < 15 then fresh else s.deck
  let reshuffled := if s.deck.length < 15 then true else s.reshuffled
  let (p1, d1) ← popCard deck0
  let (p2, d2) ← popCard d1
  let (q1, d3) ← popCard d2
  let (q2, d4) ← popCard d3
  pure { s with
    deck := d4, playerHand := [p1, p2], dealerHand := [q1, q2],
    reshuffled := reshuffled, phase := Phase.playing }

/-! Concrete states used to instantiate the theorems. -/

/-- State whose dealer shows a soft 17 (ace and six). -/
def soft17State : GameState :=
  { createGameState with
    dealerHand := [mkCard Suit.spades Rank.ace, mkCard Suit.diamonds Rank.six] }

/-- State whose dealer has busted with 25. -/
def bustedDealerState : GameState :=
  { createGameState with
    dealerHand := [mkCard Suit.clubs Rank.king, mkCard Suit.hearts Rank.queen,
                   mkCard Suit.spades Rank.five] }

/-- C9: `isDealerDone` holds exactly when the recomputed dealer total is
at least 17; in particular it holds on a soft 17 and on any busted dealer
hand. -/
theorem isDealerDone_spec :
    (∀ s : GameState,
      isDealerDone s = true ↔ 17 ≤ (calculateHandTotal s.dealerHand).total) ∧
    (∀ s : GameState,
      21 < (calculateHandTotal s.dealerHand).total → isDealerDone s = true) ∧
    isDealerDone soft17State = true ∧
    calculateHandTotal soft17State.dealerHand = { total := 17, soft := true } := by
  refine ⟨fun s => ?_, fun s h => ?_, by decide, by decide⟩
  · simp [isDealerDone]
  · simp only [isDealerDone, decide_eq_true_eq]
    omega

/-- Witness for C9 at a dealer hand that busted with 25. -/
theorem isDealerDone_spec_witness :
    21 < (calculateHandTotal bustedDealerState.dealerHand).total ∧
    isDealerDone bustedDealerState = true :=
  ⟨by decide, isDealerDone_spec.2.1 bustedDealerState (by decide)⟩

/-- C8: when neither side holds a 2-card 21, the blackjack check returns
its input state unchanged, and is therefore idempotent on such states. -/
theorem checkForBlackjack_identity (s : GameState)
    (hp : isBlackjack s.playerHand = false)
    (hd : isBlackjack s.dealerHand = false) :
    checkForBlackjack s = s ∧
    checkForBlackjack (checkForBlackjack s) = checkForBlackjack s := by
  have h : checkForBlackjack s = s := by
    unfold checkForBlackjack
    rw [hp, hd]
    simp
  exact ⟨h, by rw [h]; exact h⟩

/-- State in mid-round: player 19, dealer 17, no naturals. -/
def noNaturalState : GameState :=
  { createGameState with
    playerHand := [mkCard Suit.spades Rank.ten, mkCard Suit.hearts Rank.nine],
    dealerHand := [mkCard Suit.clubs Rank.king, mkCard Suit.diamonds Rank.seven],
    chips := 900, bet := 100, phase := Phase.playing }

/-- Witness for C8 on a concrete no-natural deal. -/
theorem checkForBlackjack_identity_witness :
    isBlackjack noNaturalState.playerHand = false ∧
    isBlackjack noNaturalState.dealerHand = false ∧
    checkForBlackjack noNaturalState = noNaturalState :=
  ⟨by decide, by decide,
   (checkForBlackjack_identity noNaturalState (by decide) (by decide)).1⟩

/-- C3: after a deal in which only the player holds a natural, the
blackjack check pays 3:2 — the payout is `bet * 1.5` rounded half up,
pinned by `2 * payout ∈ \x7b3 * bet, 3 * bet + 1\x7d` — chips grow by exactly
`bet + payout`, `chipChange` is the payout, and `handsWon` and
`blackjacks` are incremented; at bet 100 the chip change is +150 and the
chips grow by 250. -/
theorem checkForBlackjack_player_natural (s : GameState)
    (hp : isBlackjack s.playerHand = true)
    (hd : isBlackjack s.dealerHand = false) :
    (2 * bjPayout s.bet = 3 * s.bet ∨ 2 * bjPayout s.bet = 3 * s.bet + 1) ∧
    (checkForBlackjack s).chips = s.chips + s.bet + bjPayout s.bet ∧
    (checkForBlackjack s).result =
      some ⟨Outcome.blackjack, "BLACKJACK!", bjPayout s.bet⟩ ∧
    (checkForBlackjack s).stats.handsWon = s.stats.handsWon + 1 ∧
    (checkForBlackjack s).stats.blackjacks = s.stats.blackjacks + 1 ∧
    (checkForBlackjack s).stats.handsPlayed = s.stats.handsPlayed + 1 ∧
    (checkForBlackjack s).phase = Phase.result ∧
    (s.bet = 100 →
      (checkForBlackjack s).chips = s.chips + 250 ∧
      (checkForBlackjack s).result =
        some ⟨Outcome.blackjack, "BLACKJACK!", 150⟩) := by
  have hr : 2 * bjPayout s.bet = 3 * s.bet ∨
      2 * bjPayout s.bet = 3 * s.bet + 1 := by
    unfold bjPayout
    rw [Int.fdiv_eq_ediv _ (by omega)]
    omega
  have hcb : checkForBlackjack s =
      { s with
        phase := Phase.result,
        chips := s.chips + s.bet + bjPayout s.bet,
        stats := { s.stats with
                   handsPlayed := s.stats.handsPlayed + 1,
                   handsWon := s.stats.handsWon + 1,
                   blackjacks := s.stats.blackjacks + 1,
                   peakChips := max s.stats.peakChips
                     (s.chips + s.bet + bjPayout s.bet) },
        result := some ⟨Outcome.blackjack, "BLACKJACK!", bjPayout s.bet⟩ } := by
    unfold checkForBlackjack
    rw [hp, hd]
    simp
  rw [hcb]
  refine ⟨hr, rfl, rfl, rfl, rfl, rfl, rfl, fun hb => ?_⟩
  rw [hb]
  have h150 : bjPayout (100 : Int) = 150 := by decide
  refine ⟨?_, ?_⟩
  · show s.chips + 100 + bjPayout 100 = s.chips + 250
    rw [h150]
    omega
  · show (some ⟨Outcome.blackjack, "BLACKJACK!", bjPayout 100⟩ :
        Option HandResult) = some ⟨Outcome.blackjack, "BLACKJACK!", 150⟩
    rw [h150]

/-- The spec's scenario state: player `A♠ K♥`, dealer `8♣ 9♦`, bet 100
already deducted from 1000 chips. -/
def naturalDealState : GameState :=
  { createGameState with
    playerHand := [mkCard Suit.spades Rank.ace, mkCard Suit.hearts Rank.king],
    dealerHand := [mkCard Suit.clubs Rank.eight, mkCard Suit.diamonds Rank.nine],
    chips := 900, bet := 100, phase := Phase.playing }

/-- Witness for C3 on the spec's `A♠ K♥` versus `8♣ 9♦` scenario. -/
theorem checkForBlackjack_player_natural_witness :
    (checkForBlackjack naturalDealState).chips = naturalDealState.chips + 250 ∧
    (checkForBlackjack naturalDealState).result =
      some ⟨Outcome.blackjack, "BLACKJACK!", 150⟩ :=
  (checkForBlackjack_player_natural naturalDealState
    (by decide) (by decide)).2.2.2.2.2.2.2 rfl

/-- C10: `getWinRate` is total — zero hands played yields the string
`"0.0"` with no division, and otherwise the result prints
`handsWon / handsPlayed * 100` rounded to exactly one decimal digit:
the printed value `n` (in tenths) is the half-up rounding of
`handsWon / handsPlayed * 1000`. -/
theorem getWinRate_total_spec (stats : Stats) :
    (stats.handsPlayed = 0 → getWinRate stats = "0.0") ∧
    (0 < stats.handsPlayed →
      ∃ n : Nat,
        (n : ℚ) ≤ (stats.handsWon : ℚ) / (stats.handsPlayed : ℚ) * 1000 + 1/2 ∧
        (stats.handsWon : ℚ) / (stats.handsPlayed : ℚ) * 1000 - 1/2 < (n : ℚ) ∧
        n % 10 < 10 ∧
        getWinRate stats = toString (n / 10) ++ "." ++ toString (n % 10)) := by
  constructor
  · intro h
    simp [getWinRate, h]
  · intro hpos
    have hne : stats.handsPlayed ≠ 0 := by omega
    set x : ℚ := (stats.handsWon : ℚ) / (stats.handsPlayed : ℚ) * 1000 with hxdef
    have hx0 : (0:ℚ) ≤ x := by positivity
    have hfl : (0:ℤ) ≤ ⌊x + 1/2⌋ := Int.floor_nonneg.mpr (by linarith)
    have hle : (⌊x + 1/2⌋ : ℚ) ≤ x + 1/2 := Int.floor_le _
    have hlt : x + 1/2 < (⌊x + 1/2⌋ : ℚ) + 1 := Int.lt_floor_add_one _
    have hcast : ((⌊x + 1/2⌋.toNat : ℤ) : ℚ) = ((⌊x + 1/2⌋ : ℤ) : ℚ) := by
      rw [Int.toNat_of_nonneg hfl]
    refine ⟨⌊x + 1/2⌋.toNat, ?_, ?_, Nat.mod_lt _ (by norm_num), ?_⟩
    · push_cast at hcast ⊢
      rw [hcast]
      exact hle
    · push_cast at hcast ⊢
      rw [hcast]
      linarith
    · have harg : 10 * ((stats.handsWon : ℚ) / (stats.handsPlayed : ℚ) * 100)
          + 1/2 = x + 1/2 := by
        rw [hxdef]
        ring
      simp only [getWinRate, if_neg hne, formatFixed1, harg]

/-- Witness for C10: zero hands gives `"0.0"`, and one win in two hands
prints as `"50.0"`. -/
theorem getWinRate_total_spec_witness :
    getWinRate createGameState.stats = "0.0" ∧
    (∃ n : Nat,
      (n : ℚ) ≤ ((1:Nat) : ℚ) / ((2:Nat) : ℚ) * 1000 + 1/2 ∧
      ((1:Nat) : ℚ) / ((2:Nat) : ℚ) * 1000 - 1/2 < (n : ℚ) ∧
      n % 10 < 10 ∧
      getWinRate { handsPlayed := 2, handsWon := 1, handsLost := 1,
                   handsPushed := 0, blackjacks := 0, peakChips := 1000 } =
        toString (n / 10) ++ "." ++ toString (n % 10)) :=
  ⟨(getWinRate_total_spec createGameState.stats).1 rfl,
   (getWinRate_total_spec { handsPlayed := 2, handsWon := 1, handsLost := 1,
                            handsPushed := 0, blackjacks := 0,
                            peakChips := 1000 }).2 (by norm_num)⟩

/-- C5: `placeBet` rejects (returning an error and no state) exactly the
non-finite or non-integer amounts and the finite integer amounts that are
at most 0, below the table minimum 10, above the maximum 500, or above
the current chips; on any other amount it returns the state with chips
reduced by the amount, `bet` set, phase `playing`, and all other fields
untouched. -/
theorem placeBet_spec (s : GameState) (a : JSNum) :
    ((∃ e, placeBet s a = BetResult.invalid e) ↔
      ∀ q : ℚ, a = JSNum.num q →
        q.den ≠ 1 ∨ q ≤ 0 ∨ q < 10 ∨ 500 < q ∨ (s.chips : ℚ) < q) ∧
    (∀ q : ℚ, a = JSNum.num q →
      ¬(q.den ≠ 1 ∨ q ≤ 0 ∨ q < 10 ∨ 500 < q ∨ (s.chips : ℚ) < q) →
      placeBet s a = BetResult.valid { s with
        bet := q.num, chips := s.chips - q.num, phase := Phase.playing }) := by
  cases a with
  | num q =>
    have key : (¬(q.den ≠ 1 ∨ q ≤ 0 ∨ q < 10 ∨ 500 < q ∨ (s.chips : ℚ) < q) →
        placeBet s (JSNum.num q) = BetResult.valid { s with
          bet := q.num, chips := s.chips - q.num, phase := Phase.playing }) ∧
        ((q.den ≠ 1 ∨ q ≤ 0 ∨ q < 10 ∨ 500 < q ∨ (s.chips : ℚ) < q) →
          ∃ e, placeBet s (JSNum.num q) = BetResult.invalid e) := by
      simp only [placeBet]
      split_ifs with h1 h2 h3 h4
      · exact ⟨fun hc => absurd (by tauto) hc, fun _ => ⟨_, rfl⟩⟩
      · exact ⟨fun hc => absurd (by tauto) hc, fun _ => ⟨_, rfl⟩⟩
      · exact ⟨fun hc => absurd (by tauto) hc, fun _ => ⟨_, rfl⟩⟩
      · exact ⟨fun hc => absurd (by tauto) hc, fun _ => ⟨_, rfl⟩⟩
      · exact ⟨fun _ => rfl, fun hc => absurd hc (by tauto)⟩
    refine ⟨⟨?_, ?_⟩, ?_⟩
    · rintro ⟨e, he⟩ q' hq'
      injection hq' with h
      subst h
      by_contra hc
      rw [key.1 hc] at he
      exact BetResult.noConfusion he
    · intro hall
      exact key.2 (hall q rfl)
    · intro q' hq'
      injection hq' with h
      subst h
      exact key.1
  | nan =>
    exact ⟨iff_of_true ⟨_, rfl⟩ (fun q h => by cases h), fun q h => by cases h⟩
  | posInf =>
    exact ⟨iff_of_true ⟨_, rfl⟩ (fun q h => by cases h), fun q h => by cases h⟩
  | negInf =>
    exact ⟨iff_of_true ⟨_, rfl⟩ (fun q h => by cases h), fun q h => by cases h⟩

/-- Witness for C5: betting 100 from the fresh 1000-chip state succeeds
and deducts the stake. -/
theorem placeBet_spec_witness :
    placeBet createGameState (JSNum.num 100) = BetResult.valid
      { createGameState with
        bet := (100:ℚ).num, chips := createGameState.chips - (100:ℚ).num,
        phase := Phase.playing } :=
  (placeBet_spec createGameState (JSNum.num 100)).2 100 rfl (by norm_num [createGameState])

/-- C6: with a matched-rank 2-card hand and chips covering the bet,
`playerSplit` deducts one extra stake, builds two SplitHands each seeded
from one original card plus one newly dealt card and each carrying the
original bet; splitting aces marks both hands `stand` and jumps to
`dealerTurn`, otherwise both hands are `playing`, phase stays `playing`,
and the active-hand pointer starts at 0. -/
theorem playerSplit_spec (s : GameState) (c1 c2 : Card) (d : List Card)
    (x y : Card)
    (hhand : s.playerHand = [c1, c2])
    (hrank : c1.rank = c2.rank)
    (hchips : s.bet ≤ s.chips)
    (hdeck : s.deck = d ++ [x, y]) :
    playerSplit s = some { s with
      deck := d,
      chips := s.chips - s.bet,
      splitHands := some
        [{ cards := [c1, y], bet := s.bet,
           status := if c1.rank = Rank.ace then SplitStatus.stand
             else SplitStatus.playing, result := none },
         { cards := [c2, x], bet := s.bet,
           status := if c1.rank = Rank.ace then SplitStatus.stand
             else SplitStatus.playing, result := none }],
      activeHandIndex := 0,
      phase := if c1.rank = Rank.ace then Phase.dealerTurn
        else Phase.playing } := by
  have h1 : popCard s.deck = some (y, d ++ [x]) := by
    rw [hdeck, show d ++ [x, y] = (d ++ [x]) ++ [y] by simp]
    unfold popCard
    rw [List.getLast?_concat, List.dropLast_concat]
  have h2 : popCard (d ++ [x]) = some (x, d) := by
    unfold popCard
    rw [List.getLast?_concat, List.dropLast_concat]
  by_cases hace : c1.rank = Rank.ace <;>
    simp [playerSplit, h1, h2, hhand, hace]

/-- The spec's split scenario: a pair of eights, bet 100, chips 900. -/
def splitDeckState : GameState :=
  { createGameState with
    playerHand := [mkCard Suit.spades Rank.eight, mkCard Suit.hearts Rank.eight],
    deck := [mkCard Suit.clubs Rank.two, mkCard Suit.diamonds Rank.three,
             mkCard Suit.clubs Rank.five],
    chips := 900, bet := 100, phase := Phase.playing }

/-- Witness for C6: splitting `8♠ 8♥` at bet 100 with 900 chips leaves
800 chips and two playing SplitHands of bet 100 each. -/
theorem playerSplit_spec_witness :
    playerSplit splitDeckState = some { splitDeckState with
      deck := [mkCard Suit.clubs Rank.two],
      chips := 800,
      splitHands := some
        [{ cards := [mkCard Suit.spades Rank.eight, mkCard Suit.clubs Rank.five],
           bet := 100, status := SplitStatus.playing, result := none },
         { cards := [mkCard Suit.hearts Rank.eight, mkCard Suit.diamonds Rank.three],
           bet := 100, status := SplitStatus.playing, result := none }],
      activeHandIndex := 0,
      phase := Phase.playing } := by
  have h := playerSplit_spec splitDeckState
    (mkCard Suit.spades Rank.eight) (mkCard Suit.hearts Rank.eight)
    [mkCard Suit.clubs Rank.two] (mkCard Suit.diamonds Rank.three)
    (mkCard Suit.clubs Rank.five) rfl rfl (by decide) rfl
  simpa [mkCard, cardValue] using h

/-- Transcription of the spec's per-hand settlement rule (§4.8 of the
spec, refinement side): a busted hand always loses; otherwise dealer bust
or the higher player total wins, the lower total loses, equal totals
push. -/
def specOutcome (playerTotal : Nat) (playerBust : Bool)
    (dealerTotal : Nat) : Outcome :=
  if playerBust then Outcome.lose
  else if 21 < dealerTotal then Outcome.win
  else if dealerTotal < playerTotal then Outcome.win
  else if playerTotal < dealerTotal then Outcome.lose
  else Outcome.push

/-- Chip change the spec reports for an outcome (refinement side). -/
def specDelta (o : Outcome) (bet : Int) : Int :=
  match o with
  | Outcome.win => bet
  | Outcome.lose => -bet
  | _ => 0

/-- Chips credited back at settlement per the spec (refinement side):
a win returns the stake plus winnings, a push the stake, a loss
nothing. -/
def specGain (o : Outcome) (bet : Int) : Int :=
  match o with
  | Outcome.win => 2 * bet
  | Outcome.push => bet
  | _ => 0

/-- One `settleSplitRound` iteration settles its hand by the spec's rule:
chips grow by the gain for that hand's outcome, the chip delta by the
outcome's chip change, and `handsPlayed` by one. -/
theorem settleSplitStep_eq (dt : Nat) (acc : SettleAcc) (h : SplitHand) :
    (settleSplitStep dt acc h).chips =
      acc.chips + specGain (specOutcome (calculateHandTotal h.cards).total
        (h.status == SplitStatus.bust) dt) h.bet ∧
    (settleSplitStep dt acc h).delta =
      acc.delta + specDelta (specOutcome (calculateHandTotal h.cards).total
        (h.status == SplitStatus.bust) dt) h.bet ∧
    (settleSplitStep dt acc h).stats.handsPlayed =
      acc.stats.handsPlayed + 1 := by
  simp only [settleSplitStep, settleOneHand, specOutcome, specGain, specDelta]
  split_ifs <;> simp_all <;> ring

/-- C2: settlement with the player not busted (non-split) compares the
recomputed totals — dealer bust or higher player total wins 2×bet, lower
loses with chips unchanged, equal pushes the bet back — and a split round
settles each SplitHand independently by the same rule (a busted SplitHand
always loses), sums the chip changes into an aggregate `split` result,
and bumps `handsPlayed` once per hand. -/
theorem settleRound_spec (s : GameState) :
    (s.splitHands = none →
      (calculateHandTotal s.playerHand).total ≤ 21 →
      (settleRound s).phase = Phase.result ∧
      (settleRound s).chips = s.chips + specGain
        (specOutcome (calculateHandTotal s.playerHand).total false
          (calculateHandTotal s.dealerHand).total) s.bet ∧
      (∃ m, (settleRound s).result = some
        ⟨specOutcome (calculateHandTotal s.playerHand).total false
          (calculateHandTotal s.dealerHand).total, m,
         specDelta (specOutcome (calculateHandTotal s.playerHand).total false
          (calculateHandTotal s.dealerHand).total) s.bet⟩) ∧
      (settleRound s).stats.handsPlayed = s.stats.handsPlayed + 1) ∧
    (∀ h1 h2, s.splitHands = some [h1, h2] →
      (settleRound s).phase = Phase.result ∧
      (settleRound s).chips = s.chips +
        specGain (specOutcome (calculateHandTotal h1.cards).total
          (h1.status == SplitStatus.bust)
          (calculateHandTotal s.dealerHand).total) h1.bet +
        specGain (specOutcome (calculateHandTotal h2.cards).total
          (h2.status == SplitStatus.bust)
          (calculateHandTotal s.dealerHand).total) h2.bet ∧
      (settleRound s).result = some ⟨Outcome.split, "Split results",
        specDelta (specOutcome (calculateHandTotal h1.cards).total
          (h1.status == SplitStatus.bust)
          (calculateHandTotal s.dealerHand).total) h1.bet +
        specDelta (specOutcome (calculateHandTotal h2.cards).total
          (h2.status == SplitStatus.bust)
          (calculateHandTotal s.dealerHand).total) h2.bet⟩ ∧
      (settleRound s).stats.handsPlayed = s.stats.handsPlayed + 2) := by
  constructor
  · intro hns hpt
    by_cases hd : 21 < (calculateHandTotal s.dealerHand).total
    · have ho : specOutcome (calculateHandTotal s.playerHand).total false
          (calculateHandTotal s.dealerHand).total = Outcome.win := by
        simp [specOutcome, hd]
      have hset : settleRound s = { s with
          phase := Phase.result,
          chips := s.chips + s.bet + s.bet,
          stats := { s.stats with
                     handsPlayed := s.stats.handsPlayed + 1,
                     handsWon := s.stats.handsWon + 1,
                     peakChips := max s.stats.peakChips
                       (s.chips + s.bet + s.bet) },
          result := some ⟨Outcome.win, "Dealer busts!", s.bet⟩ } := by
        unfold settleRound
        rw [hns]
        dsimp only
        rw [if_pos hd]
      rw [hset, ho]
      refine ⟨rfl, ?_, ⟨"Dealer busts!", ?_⟩, rfl⟩
      · show s.chips + s.bet + s.bet = s.chips + specGain Outcome.win s.bet
        simp [specGain]
        ring
      · show (some ⟨Outcome.win, "Dealer busts!", s.bet⟩ :
            Option HandResult) =
          some ⟨Outcome.win, "Dealer busts!", specDelta Outcome.win s.bet⟩
        simp [specDelta]
    · by_cases hp : (calculateHandTotal s.dealerHand).total <
          (calculateHandTotal s.playerHand).total
      · have ho : specOutcome (calculateHandTotal s.playerHand).total false
            (calculateHandTotal s.dealerHand).total = Outcome.win := by
          simp [specOutcome, hd, hp]
        have hset : settleRound s = { s with
            phase := Phase.result,
            chips := s.chips + s.bet + s.bet,
            stats := { s.stats with
                       handsPlayed := s.stats.handsPlayed + 1,
                       handsWon := s.stats.handsWon + 1,
                       peakChips := max s.stats.peakChips
                         (s.chips + s.bet + s.bet) },
            result := some ⟨Outcome.win, "You win!", s.bet⟩ } := by
          unfold settleRound
          rw [hns]
          dsimp only
          rw [if_neg hd, if_pos hp]
        rw [hset, ho]
        refine ⟨rfl, ?_, ⟨"You win!", ?_⟩, rfl⟩
        · show s.chips + s.bet + s.bet = s.chips + specGain Outcome.win s.bet
          simp [specGain]
          ring
        · show (some ⟨Outcome.win, "You win!", s.bet⟩ :
              Option HandResult) =
            some ⟨Outcome.win, "You win!", specDelta Outcome.win s.bet⟩
          simp [specDelta]
      · by_cases hl : (calculateHandTotal s.playerHand).total <
            (calculateHandTotal s.dealerHand).total
        · have ho : specOutcome (calculateHandTotal s.playerHand).total false
              (calculateHandTotal s.dealerHand).total = Outcome.lose := by
            simp [specOutcome, hd, hp, hl]
          have hset : settleRound s = { s with
              phase := Phase.result,
              chips := s.chips,
              stats := { s.stats with
                         handsPlayed := s.stats.handsPlayed + 1,
                         handsLost := s.stats.handsLost + 1,
                         peakChips := max s.stats.peakChips s.chips },
              result := some ⟨Outcome.lose, "Dealer wins.", -s.bet⟩ } := by
            unfold settleRound
            rw [hns]
            dsimp only
            rw [if_neg hd, if_neg hp, if_pos hl]
          rw [hset, ho]
          refine ⟨rfl, ?_, ⟨"Dealer wins.", ?_⟩, rfl⟩
          · show s.chips = s.chips + specGain Outcome.lose s.bet
            simp [specGain]
          · show (some ⟨Outcome.lose, "Dealer wins.", -s.bet⟩ :
                Option HandResult) =
              some ⟨Outcome.lose, "Dealer wins.", specDelta Outcome.lose s.bet⟩
            simp [specDelta]
        · have ho : specOutcome (calculateHandTotal s.playerHand).total false
              (calculateHandTotal s.dealerHand).total = Outcome.push := by
            simp [specOutcome, hd, hp, hl]
          have hset : settleRound s = { s with
              phase := Phase.result,
              chips := s.chips + s.bet,
              stats := { s.stats with
                         handsPlayed := s.stats.handsPlayed + 1,
                         handsPushed := s.stats.handsPushed + 1,
                         peakChips := max s.stats.peakChips
                           (s.chips + s.bet) },
              result := some ⟨Outcome.push, "Push!", 0⟩ } := by
            unfold settleRound
            rw [hns]
            dsimp only
            rw [if_neg hd, if_neg hp, if_neg hl]
          rw [hset, ho]
          refine ⟨rfl, ?_, ⟨"Push!", ?_⟩, rfl⟩
          · show s.chips + s.bet = s.chips + specGain Outcome.push s.bet
            simp [specGain]
          · show (some ⟨Outcome.push, "Push!", 0⟩ : Option HandResult) =
              some ⟨Outcome.push, "Push!", specDelta Outcome.push s.bet⟩
            simp [specDelta]
  · intro h1 h2 hsh
    have e1 := settleSplitStep_eq (calculateHandTotal s.dealerHand).total
      { stats := s.stats, chips := s.chips, delta := 0, hands := [] } h1
    have e2 := settleSplitStep_eq (calculateHandTotal s.dealerHand).total
      (settleSplitStep (calculateHandTotal s.dealerHand).total
        { stats := s.stats, chips := s.chips, delta := 0, hands := [] } h1) h2
    have hset : settleRound s = { s with
        phase := Phase.result,
        chips := (settleSplitStep (calculateHandTotal s.dealerHand).total
          (settleSplitStep (calculateHandTotal s.dealerHand).total
            { stats := s.stats, chips := s.chips, delta := 0, hands := [] }
            h1) h2).chips,
        splitHands := some (settleSplitStep
          (calculateHandTotal s.dealerHand).total
          (settleSplitStep (calculateHandTotal s.dealerHand).total
            { stats := s.stats, chips := s.chips, delta := 0, hands := [] }
            h1) h2).hands,
        stats := { (settleSplitStep (calculateHandTotal s.dealerHand).total
          (settleSplitStep (calculateHandTotal s.dealerHand).total
            { stats := s.stats, chips := s.chips, delta := 0, hands := [] }
            h1) h2).stats with
          peakChips := max (settleSplitStep
            (calculateHandTotal s.dealerHand).total
            (settleSplitStep (calculateHandTotal s.dealerHand).total
              { stats := s.stats, chips := s.chips, delta := 0, hands := [] }
              h1) h2).stats.peakChips
            (settleSplitStep (calculateHandTotal s.dealerHand).total
              (settleSplitStep (calculateHandTotal s.dealerHand).total
                { stats := s.stats, chips := s.chips, delta := 0,
                  hands := [] } h1) h2).chips },
        result := some ⟨Outcome.split, "Split results",
          (settleSplitStep (calculateHandTotal s.dealerHand).total
            (settleSplitStep (calculateHandTotal s.dealerHand).total
              { stats := s.stats, chips := s.chips, delta := 0, hands := [] }
              h1) h2).delta⟩ } := by
      unfold settleRound settleSplitRound
      rw [hsh]
      rfl
    rw [hset]
    refine ⟨rfl, ?_, ?_, ?_⟩
    · dsimp only
      rw [e2.1, e1.1]
    · dsimp only
      rw [e2.2.1, e1.2.1]
      simp
    · dsimp only
      rw [e2.2.2, e1.2.2]

/-- State holding a settled split round: hand one stands on 20, hand two
busted, dealer has 19. -/
def splitSettleState : GameState :=
  { createGameState with
    dealerHand := [mkCard Suit.clubs Rank.ten, mkCard Suit.diamonds Rank.nine],
    chips := 700, bet := 100, phase := Phase.dealerTurn,
    splitHands := some
      [{ cards := [mkCard Suit.spades Rank.eight, mkCard Suit.hearts Rank.queen,
                   mkCard Suit.clubs Rank.two],
         bet := 100, status := SplitStatus.stand, result := none },
       { cards := [mkCard Suit.hearts Rank.eight, mkCard Suit.spades Rank.king,
                   mkCard Suit.diamonds Rank.five],
         bet := 100, status := SplitStatus.bust, result := none }] }

/-- Witness for C2 on a concrete split settlement: the standing 20 beats
the dealer's 19 (+100), the busted hand loses (-100), so the aggregate
`split` result carries chip change 0, chips end at 900, and two hands are
counted. -/
theorem settleRound_spec_witness :
    (settleRound splitSettleState).phase = Phase.result ∧
    (settleRound splitSettleState).chips = 900 ∧
    (settleRound splitSettleState).result =
      some ⟨Outcome.split, "Split results", 0⟩ ∧
    (settleRound splitSettleState).stats.handsPlayed = 2 := by
  have h := (settleRound_spec splitSettleState).2
    { cards := [mkCard Suit.spades Rank.eight, mkCard Suit.hearts Rank.queen,
                mkCard Suit.clubs Rank.two],
      bet := 100, status := SplitStatus.stand, result := none }
    { cards := [mkCard Suit.hearts Rank.eight, mkCard Suit.spades Rank.king,
                mkCard Suit.diamonds Rank.five],
      bet := 100, status := SplitStatus.bust, result := none }
    rfl
  simpa [specOutcome, specGain, specDelta, mkCard, cardValue,
    splitSettleState, calculateHandTotal, sumValues, countAces,
    demoteLoop] using h

/-- Advancing a two-hand split whose first hand is resolved: if the
second hand still plays the pointer moves to it, otherwise the phase
becomes `dealerTurn`. -/
theorem advance_two_first (s₁ : GameState) (a b : SplitHand)
    (hsh : s₁.splitHands = some [a, b]) (hact : s₁.activeHandIndex = 0)
    (ha : a.status ≠ SplitStatus.playing) :
    advanceSplitHand s₁ = (if b.status = SplitStatus.playing
      then { s₁ with activeHandIndex := 1 }
      else { s₁ with phase := Phase.dealerTurn }) := by
  by_cases hb : b.status = SplitStatus.playing <;>
    simp [advanceSplitHand, findNextPlaying, findIdxFrom, hsh, hact, ha, hb]

/-- Advancing a two-hand split with the pointer on the second hand and
both hands resolved always moves to `dealerTurn`. -/
theorem advance_two_second (s₁ : GameState) (a b : SplitHand)
    (hsh : s₁.splitHands = some [a, b])
    (ha : a.status ≠ SplitStatus.playing)
    (hb : b.status ≠ SplitStatus.playing) :
    advanceSplitHand s₁ = { s₁ with phase := Phase.dealerTurn } := by
  simp [advanceSplitHand, hsh, ha, hb]

/-- Conclusion of claim C4 for a two-hand split state: after the action
the split hands persist, the hand away from the original pointer keeps
its cards, bet and status, a fully resolved pair moves the phase to
`dealerTurn`, and otherwise the phase is unchanged and the pointer rests
on a hand still `playing` — strictly past the original pointer whenever
the acted-on hand got resolved. -/
def SplitAdvanceOk (s s' : GameState) (h0 h1 : SplitHand) : Prop :=
  ∃ hs', s'.splitHands = some hs' ∧ hs'.length = 2 ∧
    (∀ i, i < 2 → i ≠ s.activeHandIndex → hs'.get? i = [h0, h1].get? i) ∧
    ((∀ h ∈ hs', h.status ≠ SplitStatus.playing) →
      s'.phase = Phase.dealerTurn) ∧
    ((∃ h ∈ hs', h.status = SplitStatus.playing) →
      s'.phase = s.phase ∧
      ∃ j h, s'.activeHandIndex = j ∧ hs'.get? j = some h ∧
        h.status = SplitStatus.playing ∧
        (∀ hA, hs'.get? s.activeHandIndex = some hA →
          hA.status ≠ SplitStatus.playing → s.activeHandIndex < j))

/-- Builder for `SplitAdvanceOk` when both hands ended up resolved. -/
theorem splitAdvanceOk_done (s s' : GameState) (h0 h1 a b : SplitHand)
    (hsp : s'.splitHands = some [a, b])
    (hph : s'.phase = Phase.dealerTurn)
    (ha : a.status ≠ SplitStatus.playing)
    (hb : b.status ≠ SplitStatus.playing)
    (hpres : ∀ i, i < 2 → i ≠ s.activeHandIndex →
      [a, b].get? i = [h0, h1].get? i) :
    SplitAdvanceOk s s' h0 h1 := by
  refine ⟨[a, b], hsp, rfl, hpres, fun _ => hph, ?_⟩
  rintro ⟨h, hm, hpst⟩
  simp only [List.mem_cons, List.not_mem_nil, or_false] at hm
  rcases hm with rfl | rfl
  · exact (ha hpst).elim
  · exact (hb hpst).elim

/-- Builder for `SplitAdvanceOk` when the pointer moved from the resolved
first hand to the still-playing second hand. -/
theorem splitAdvanceOk_moved (s s' : GameState) (h0 h1 a b : SplitHand)
    (hsp : s'.splitHands = some [a, b])
    (hph : s'.phase = s.phase)
    (hact0 : s.activeHandIndex = 0)
    (hact' : s'.activeHandIndex = 1)
    (hb : b.status = SplitStatus.playing)
    (hpres : ∀ i, i < 2 → i ≠ s.activeHandIndex →
      [a, b].get? i = [h0, h1].get? i) :
    SplitAdvanceOk s s' h0 h1 := by
  refine ⟨[a, b], hsp, rfl, hpres, ?_, ?_⟩
  · intro hall
    exact absurd hb (hall b (by simp))
  · intro _
    exact ⟨hph, 1, b, hact', rfl, hb,
      fun hA _ _ => by rw [hact0]; norm_num⟩

/-- Builder for `SplitAdvanceOk` when the active hand is still playing
and the pointer stayed put. -/
theorem splitAdvanceOk_stay (s s' : GameState) (h0 h1 a b c : SplitHand)
    (j : Nat)
    (hsp : s'.splitHands = some [a, b])
    (hph : s'.phase = s.phase)
    (hact' : s'.activeHandIndex = j)
    (hacts : s.activeHandIndex = j)
    (hgetj : [a, b].get? j = some c)
    (hc : c.status = SplitStatus.playing)
    (hpres : ∀ i, i < 2 → i ≠ s.activeHandIndex →
      [a, b].get? i = [h0, h1].get? i) :
    SplitAdvanceOk s s' h0 h1 := by
  refine ⟨[a, b], hsp, rfl, hpres, ?_, ?_⟩
  · intro hall
    have hm : c ∈ [a, b] := List.get?_mem hgetj
    exact absurd hc (hall c hm)
  · intro _
    refine ⟨hph, j, c, hact', hgetj, hc, ?_⟩
    intro hA hgA hne
    rw [hacts] at hgA
    rw [hgA] at hgetj
    have hAc : hA = c := Option.some.inj hgetj
    exact absurd (by rw [hAc]; exact hc) hne

/-- C4: in a two-hand split state reachable mid-round (pointer on hand 0,
or on hand 1 with hand 0 already resolved), `splitStand` and `splitHit`
leave the inactive hand untouched and then advance: phase moves to
`dealerTurn` exactly when no hand is left `playing`, and otherwise the
pointer ends on the next still-playing hand. -/
theorem splitAdvance_spec (s s' : GameState) (h0 h1 : SplitHand)
    (hsh : s.splitHands = some [h0, h1])
    (hinv : s.activeHandIndex = 0 ∨
      (s.activeHandIndex = 1 ∧ h0.status ≠ SplitStatus.playing)) :
    (splitStand s = some s' → SplitAdvanceOk s s' h0 h1) ∧
    (splitHit s = some s' → SplitAdvanceOk s s' h0 h1) := by
  constructor
  · intro hstep
    rcases hinv with hidx | ⟨hidx, h0st⟩
    · have hcomp : splitStand s = some (advanceSplitHand { s with
          splitHands := some [{ h0 with status := SplitStatus.stand }, h1] }) := by
        unfold splitStand
        rw [hsh, hidx]
        rfl
      have hadv := advance_two_first
        { s with
          splitHands := some [{ h0 with status := SplitStatus.stand }, h1] }
        { h0 with status := SplitStatus.stand } h1 rfl hidx (by simp)
      rw [hcomp, hadv] at hstep
      by_cases hb : h1.status = SplitStatus.playing
      · rw [if_pos hb] at hstep
        injection hstep with he
        subst he
        refine splitAdvanceOk_moved s _ h0 h1 _ h1 rfl rfl hidx rfl hb ?_
        intro i hi hne
        rw [hidx] at hne
        have h1' : i = 1 := by omega
        subst h1'
        rfl
      · rw [if_neg hb] at hstep
        injection hstep with he
        subst he
        refine splitAdvanceOk_done s _ h0 h1 _ h1 rfl rfl (by simp) hb ?_
        intro i hi hne
        rw [hidx] at hne
        have h1' : i = 1 := by omega
        subst h1'
        rfl
    · have hcomp : splitStand s = some (advanceSplitHand { s with
          splitHands := some [h0, { h1 with status := SplitStatus.stand }] }) := by
        unfold splitStand
        rw [hsh, hidx]
        rfl
      have hadv := advance_two_second
        { s with
          splitHands := some [h0, { h1 with status := SplitStatus.stand }] }
        h0 { h1 with status := SplitStatus.stand } rfl h0st (by simp)
      rw [hcomp, hadv] at hstep
      injection hstep with he
      subst he
      refine splitAdvanceOk_done s _ h0 h1 h0 _ rfl rfl h0st (by simp) ?_
      intro i hi hne
      rw [hidx] at hne
      have h0' : i = 0 := by omega
      subst h0'
      rfl
  · intro hstep
    cases hpc : popCard s.deck with
    | none =>
      unfold splitHit at hstep
      rw [hpc] at hstep
      simp at hstep
    | some pr =>
      obtain ⟨card, deck2⟩ := pr
      rcases hinv with hidx | ⟨hidx, h0st⟩
      · by_cases hgt : 21 < (calculateHandTotal (h0.cards ++ [card])).total
        · have hcomp : splitHit s = some (advanceSplitHand { s with
              deck := deck2,
              splitHands :=
                some [{ h0 with cards := h0.cards ++ [card], status := SplitStatus.bust }, h1] }) := by
            unfold splitHit
            rw [hpc, hsh, hidx]
            simp only [Option.pure_def, Option.bind_eq_bind, Option.some_bind, List.get?_cons_zero, List.get?_cons_succ]
            dsimp only
            rw [if_pos hgt]
            rfl
          have hadv := advance_two_first
            { s with
              deck := deck2,
              splitHands := some [{ h0 with cards := h0.cards ++ [card], status := SplitStatus.bust }, h1] }
            { h0 with cards := h0.cards ++ [card], status := SplitStatus.bust } h1 rfl hidx (by simp)
          rw [hcomp, hadv] at hstep
          by_cases hb : h1.status = SplitStatus.playing
          · rw [if_pos hb] at hstep
            injection hstep with he
            subst he
            refine splitAdvanceOk_moved s _ h0 h1 _ h1 rfl rfl hidx rfl hb ?_
            intro i hi hne
            rw [hidx] at hne
            have h1' : i = 1 := by omega
            subst h1'
            rfl
          · rw [if_neg hb] at hstep
            injection hstep with he
            subst he
            refine splitAdvanceOk_done s _ h0 h1 _ h1 rfl rfl (by simp) hb ?_
            intro i hi hne
            rw [hidx] at hne
            have h1' : i = 1 := by omega
            subst h1'
            rfl
        · by_cases h21 : (calculateHandTotal (h0.cards ++ [card])).total = 21
          · have hcomp : splitHit s = some (advanceSplitHand { s with
                deck := deck2,
                splitHands :=
                  some [{ h0 with cards := h0.cards ++ [card], status := SplitStatus.stand }, h1] }) := by
              unfold splitHit
              rw [hpc, hsh, hidx]
              simp only [Option.pure_def, Option.bind_eq_bind, Option.some_bind, List.get?_cons_zero, List.get?_cons_succ]
              dsimp only
              rw [if_neg hgt, if_pos h21]
              rfl
            have hadv := advance_two_first
              { s with
                deck := deck2,
                splitHands := some [{ h0 with cards := h0.cards ++ [card], status := SplitStatus.stand }, h1] }
              { h0 with cards := h0.cards ++ [card], status := SplitStatus.stand } h1 rfl hidx (by simp)
            rw [hcomp, hadv] at hstep
            by_cases hb : h1.status = SplitStatus.playing
            · rw [if_pos hb] at hstep
              injection hstep with he
              subst he
              refine splitAdvanceOk_moved s _ h0 h1 _ h1 rfl rfl hidx rfl hb ?_
              intro i hi hne
              rw [hidx] at hne
              have h1' : i = 1 := by omega
              subst h1'
              rfl
            · rw [if_neg hb] at hstep
              injection hstep with he
              subst he
              refine splitAdvanceOk_done s _ h0 h1 _ h1 rfl rfl (by simp) hb ?_
              intro i hi hne
              rw [hidx] at hne
              have h1' : i = 1 := by omega
              subst h1'
              rfl
          · have hcomp : splitHit s = some { s with
                deck := deck2,
                splitHands :=
                  some [{ h0 with cards := h0.cards ++ [card], status := SplitStatus.playing }, h1] } := by
              unfold splitHit
              rw [hpc, hsh, hidx]
              simp only [Option.pure_def, Option.bind_eq_bind, Option.some_bind, List.get?_cons_zero, List.get?_cons_succ]
              dsimp only
              rw [if_neg hgt, if_neg h21]
              rfl
            rw [hcomp] at hstep
            injection hstep with he
            subst he
            refine splitAdvanceOk_stay s _ h0 h1 _ h1
              { h0 with cards := h0.cards ++ [card], status := SplitStatus.playing } 0 rfl rfl hidx hidx rfl rfl ?_
            intro i hi hne
            rw [hidx] at hne
            have h1' : i = 1 := by omega
            subst h1'
            rfl
      · by_cases hgt : 21 < (calculateHandTotal (h1.cards ++ [card])).total
        · have hcomp : splitHit s = some (advanceSplitHand { s with
              deck := deck2,
              splitHands :=
                some [h0, { h1 with cards := h1.cards ++ [card], status := SplitStatus.bust }] }) := by
            unfold splitHit
            rw [hpc, hsh, hidx]
            simp only [Option.pure_def, Option.bind_eq_bind, Option.some_bind, List.get?_cons_zero, List.get?_cons_succ]
            dsimp only
            rw [if_pos hgt]
            rfl
          have hadv := advance_two_second
            { s with
              deck := deck2,
              splitHands := some [h0, { h1 with cards := h1.cards ++ [card], status := SplitStatus.bust }] }
            h0 { h1 with cards := h1.cards ++ [card], status := SplitStatus.bust } rfl h0st (by simp)
          rw [hcomp, hadv] at hstep
          injection hstep with he
          subst he
          refine splitAdvanceOk_done s _ h0 h1 h0 _ rfl rfl h0st (by simp) ?_
          intro i hi hne
          rw [hidx] at hne
          have h0' : i = 0 := by omega
          subst h0'
          rfl
        · by_cases h21 : (calculateHandTotal (h1.cards ++ [card])).total = 21
          · have hcomp : splitHit s = some (advanceSplitHand { s with
                deck := deck2,
                splitHands :=
                  some [h0, { h1 with cards := h1.cards ++ [card], status := SplitStatus.stand }] }) := by
              unfold splitHit
              rw [hpc, hsh, hidx]
              simp only [Option.pure_def, Option.bind_eq_bind, Option.some_bind, List.get?_cons_zero, List.get?_cons_succ]
              dsimp only
              rw [if_neg hgt, if_pos h21]
              rfl
            have hadv := advance_two_second
              { s with
                deck := deck2,
                splitHands := some [h0, { h1 with cards := h1.cards ++ [card], status := SplitStatus.stand }] }
              h0 { h1 with cards := h1.cards ++ [card], status := SplitStatus.stand } rfl h0st (by simp)
            rw [hcomp, hadv] at hstep
            injection hstep with he
            subst he
            refine splitAdvanceOk_done s _ h0 h1 h0 _ rfl rfl h0st (by simp) ?_
            intro i hi hne
            rw [hidx] at hne
            have h0' : i = 0 := by omega
            subst h0'
            rfl
          · have hcomp : splitHit s = some { s with
                deck := deck2,
                splitHands :=
                  some [h0, { h1 with cards := h1.cards ++ [card], status := SplitStatus.playing }] } := by
              unfold splitHit
              rw [hpc, hsh, hidx]
              simp only [Option.pure_def, Option.bind_eq_bind, Option.some_bind, List.get?_cons_zero, List.get?_cons_succ]
              dsimp only
              rw [if_neg hgt, if_neg h21]
              rfl
            rw [hcomp] at hstep
            injection hstep with he
            subst he
            refine splitAdvanceOk_stay s _ h0 h1 h0 _
              { h1 with cards := h1.cards ++ [card], status := SplitStatus.playing } 1 rfl rfl hidx hidx rfl rfl ?_
            intro i hi hne
            rw [hidx] at hne
            have h0' : i = 0 := by omega
            subst h0'
            rfl

/-- Two-hand split state used to instantiate C4: both hands playing,
pointer on hand 0. -/
def advHandA : SplitHand :=
  { cards := [mkCard Suit.spades Rank.eight, mkCard Suit.clubs Rank.five],
    bet := 100, status := SplitStatus.playing, result := none }

/-- Second split hand of the C4 instance. -/
def advHandB : SplitHand :=
  { cards := [mkCard Suit.hearts Rank.eight, mkCard Suit.diamonds Rank.three],
    bet := 100, status := SplitStatus.playing, result := none }

/-- Split state with both hands still playing and the pointer on hand 0. -/
def advState : GameState :=
  { createGameState with
    chips := 800, bet := 100, phase := Phase.playing,
    splitHands := some [advHandA, advHandB], activeHandIndex := 0 }

/-- Witness for C4: standing on the first hand of `advState` moves the
pointer to the second, still-playing hand. -/
theorem splitAdvance_spec_witness :
    splitStand advState = some { advState with
      splitHands := some [{ advHandA with status := SplitStatus.stand },
        advHandB],
      activeHandIndex := 1 } ∧
    SplitAdvanceOk advState { advState with
      splitHands := some [{ advHandA with status := SplitStatus.stand },
        advHandB],
      activeHandIndex := 1 } advHandA advHandB :=
  ⟨by decide,
   (splitAdvance_spec advState _ advHandA advHandB rfl (Or.inl rfl)).1
     (by decide)⟩

/-- Bankroll invariant threaded through every operation: chips and bet
are nonnegative, as is every split hand's bet. -/
def ChipsInv (s : GameState) : Prop :=
  0 ≤ s.chips ∧ 0 ≤ s.bet ∧
  ∀ hs, s.splitHands = some hs → ∀ hd ∈ hs, 0 ≤ hd.bet

/-- Accepted bets leave nonnegative chips, a positive bet no larger than
the chips held before the bet, and the split hands untouched. -/
theorem placeBet_valid_inv (s : GameState) (a : JSNum) (s' : GameState)
    (h : placeBet s a = BetResult.valid s') :
    0 ≤ s'.chips ∧ 0 ≤ s'.bet ∧ s'.bet ≤ s.chips ∧
    s'.splitHands = s.splitHands := by
  cases a with
  | nan => simp [placeBet] at h
  | posInf => simp [placeBet] at h
  | negInf => simp [placeBet] at h
  | num q =>
    simp only [placeBet] at h
    split_ifs at h with h1 h2 h3 h4
    injection h with he
    subst he
    push_neg at h1 h4
    obtain ⟨hden, hq0⟩ := h1
    have hql : (q.num : ℚ) = q := by
      have hnd := Rat.num_div_den q
      rw [hden] at hnd
      simpa using hnd
    have hnum0 : 0 < q.num := Rat.num_pos.mpr hq0
    have hle : q.num ≤ s.chips := by
      rw [← hql] at h4
      exact_mod_cast h4
    exact ⟨by dsimp only; omega, by dsimp only; omega,
      by dsimp only; omega, rfl⟩

/-- The blackjack check never decreases chips below zero and changes
neither the bet nor the split hands. -/
theorem checkForBlackjack_inv (s : GameState)
    (hb : 0 ≤ s.bet) (hc : 0 ≤ s.chips) :
    0 ≤ (checkForBlackjack s).chips ∧ (checkForBlackjack s).bet = s.bet ∧
    (checkForBlackjack s).splitHands = s.splitHands := by
  have hp : 0 ≤ bjPayout s.bet := Int.fdiv_nonneg (by omega) (by omega)
  unfold checkForBlackjack
  dsimp only
  split_ifs <;> exact ⟨by (try dsimp only); omega, rfl, rfl⟩

/-- Hitting moves cards only: chips, bet and split hands pass through. -/
theorem playerHit_inv (s s' : GameState) (h : playerHit s = some s') :
    s'.chips = s.chips ∧ s'.bet = s.bet ∧ s'.splitHands = s.splitHands := by
  unfold playerHit at h
  cases hpc : popCard s.deck with
  | none => rw [hpc] at h; simp at h
  | some pr =>
    obtain ⟨c, d⟩ := pr
    rw [hpc] at h
    simp only [Option.pure_def, Option.bind_eq_bind, Option.some_bind] at h
    split_ifs at h <;> (injection h with he; subst he; exact ⟨rfl, rfl, rfl⟩)

/-- Doubling with chips covering the bet keeps chips nonnegative, doubles
the (nonnegative) bet, and passes split hands through. -/
theorem playerDouble_inv (s s' : GameState) (h : playerDouble s = some s')
    (hcb : s.bet ≤ s.chips) (hb : 0 ≤ s.bet) :
    0 ≤ s'.chips ∧ 0 ≤ s'.bet ∧ s'.splitHands = s.splitHands := by
  unfold playerDouble at h
  cases hpc : popCard s.deck with
  | none => rw [hpc] at h; simp at h
  | some pr =>
    obtain ⟨c, d⟩ := pr
    rw [hpc] at h
    simp only [Option.pure_def, Option.bind_eq_bind, Option.some_bind] at h
    split_ifs at h <;>
      (injection h with he; subst he;
       exact ⟨by dsimp only; omega, by dsimp only; omega, rfl⟩)

/-- The dealer draw changes only the deck and the dealer hand. -/
theorem dealerDrawOne_inv (s s' : GameState) (h : dealerDrawOne s = some s') :
    s'.chips = s.chips ∧ s'.bet = s.bet ∧ s'.splitHands = s.splitHands := by
  unfold dealerDrawOne at h
  cases hpc : popCard s.deck with
  | none => rw [hpc] at h; simp at h
  | some pr =>
    obtain ⟨c, d⟩ := pr
    rw [hpc] at h
    simp only [Option.pure_def, Option.bind_eq_bind, Option.some_bind] at h
    injection h with he
    subst he
    exact ⟨rfl, rfl, rfl⟩

/-- Dealing initial cards changes only deck, hands, reshuffle flag and
phase. -/
theorem dealInitialCards_inv (fresh : List Card) (s s' : GameState)
    (h : dealInitialCards fresh s = some s') :
    s'.chips = s.chips ∧ s'.bet = s.bet ∧ s'.splitHands = s.splitHands := by
  unfold dealInitialCards at h
  simp only [Option.pure_def, Option.bind_eq_bind] at h
  cases hp1 : popCard (if s.deck.length < 15 then fresh else s.deck) with
  | none => rw [hp1] at h; simp at h
  | some pr1 =>
    obtain ⟨a1, d1⟩ := pr1
    rw [hp1] at h
    simp only [Option.some_bind] at h
    cases hp2 : popCard d1 with
    | none => rw [hp2] at h; simp at h
    | some pr2 =>
      obtain ⟨a2, d2⟩ := pr2
      rw [hp2] at h
      simp only [Option.some_bind] at h
      cases hp3 : popCard d2 with
      | none => rw [hp3] at h; simp at h
      | some pr3 =>
        obtain ⟨a3, d3⟩ := pr3
        rw [hp3] at h
        simp only [Option.some_bind] at h
        cases hp4 : popCard d3 with
        | none => rw [hp4] at h; simp at h
        | some pr4 =>
          obtain ⟨a4, d4⟩ := pr4
          rw [hp4] at h
          simp only [Option.some_bind] at h
          injection h with he
          subst he
          exact ⟨rfl, rfl, rfl⟩

/-- The game-over check changes only the phase. -/
theorem checkGameOver_inv (s : GameState) :
    (checkGameOver s).chips = s.chips ∧ (checkGameOver s).bet = s.bet ∧
    (checkGameOver s).splitHands = s.splitHands := by
  unfold checkGameOver
  split_ifs <;> exact ⟨rfl, rfl, rfl⟩

/-- Advancing the split pointer changes only phase or pointer. -/
theorem advanceSplitHand_inv (s : GameState) :
    (advanceSplitHand s).chips = s.chips ∧
    (advanceSplitHand s).bet = s.bet ∧
    (advanceSplitHand s).splitHands = s.splitHands := by
  unfold advanceSplitHand
  split
  · exact ⟨rfl, rfl, rfl⟩
  · split_ifs
    · exact ⟨rfl, rfl, rfl⟩
    · split
      · exact ⟨rfl, rfl, rfl⟩
      · exact ⟨rfl, rfl, rfl⟩

/-- Whenever `getAvailableActions` reports double or split available,
the chips cover the bet. -/
theorem avail_requires_chips (s : GameState) (acts : Actions)
    (h : getAvailableActions s = some acts) :
    (acts.double = true → s.bet ≤ s.chips) ∧
    (acts.split = true → s.bet ≤ s.chips) := by
  unfold getAvailableActions at h
  cases hsp : s.splitHands with
  | some hs =>
    rw [hsp] at h
    dsimp only at h
    split_ifs at h with hpl
    · cases hga : hs.get? s.activeHandIndex with
      | none => rw [hga] at h; simp at h
      | some ah =>
        rw [hga] at h
        simp only [Option.map_some'] at h
        injection h with he
        subst he
        constructor <;> intro hfalse <;> simp at hfalse
    · injection h with he
      subst he
      constructor <;> intro hfalse <;> simp at hfalse
  | none =>
    rw [hsp] at h
    dsimp only at h
    injection h with he
    subst he
    constructor <;> intro htrue <;>
      simp only [Bool.and_eq_true, decide_eq_true_eq] at htrue <;>
      exact htrue.2

/-- Splitting with chips covering the (nonnegative) bet keeps chips
nonnegative, leaves the bet unchanged, and stocks both split hands with
the original bet. -/
theorem playerSplit_inv (s s' : GameState) (h : playerSplit s = some s')
    (hcb : s.bet ≤ s.chips) (hb : 0 ≤ s.bet) :
    0 ≤ s'.chips ∧ s'.bet = s.bet ∧
    (∀ hs, s'.splitHands = some hs → ∀ hd ∈ hs, 0 ≤ hd.bet) := by
  unfold playerSplit at h
  cases hp1 : popCard s.deck with
  | none => rw [hp1] at h; simp at h
  | some pr1 =>
    obtain ⟨c1, d1⟩ := pr1
    rw [hp1] at h
    simp only [Option.pure_def, Option.bind_eq_bind, Option.some_bind] at h
    cases hp2 : popCard d1 with
    | none => rw [hp2] at h; simp at h
    | some pr2 =>
      obtain ⟨c2, d2⟩ := pr2
      rw [hp2] at h
      simp only [Option.some_bind] at h
      cases hg0 : s.playerHand.get? 0 with
      | none => rw [hg0] at h; simp at h
      | some a0 =>
        rw [hg0] at h
        simp only [Option.some_bind] at h
        cases hg1 : s.playerHand.get? 1 with
        | none => rw [hg1] at h; simp at h
        | some a1 =>
          rw [hg1] at h
          simp only [Option.some_bind] at h
          injection h with he
          subst he
          refine ⟨by dsimp only; omega, rfl, ?_⟩
          intro hs hhs hd hmem
          injection hhs with he2
          subst he2
          simp only [List.mem_cons, List.not_mem_nil, or_false] at hmem
          rcases hmem with rfl | rfl <;> exact hb

/-- `splitHit` keeps chips and bet, and every surviving split hand keeps
a nonnegative bet. -/
theorem splitHit_inv (s s' : GameState) (h : splitHit s = some s')
    (hinv : ∀ hs, s.splitHands = some hs → ∀ hd ∈ hs, 0 ≤ hd.bet) :
    s'.chips = s.chips ∧ s'.bet = s.bet ∧
    (∀ hs, s'.splitHands = some hs → ∀ hd ∈ hs, 0 ≤ hd.bet) := by
  unfold splitHit at h
  cases hpc : popCard s.deck with
  | none => rw [hpc] at h; simp at h
  | some pr =>
    obtain ⟨c, d⟩ := pr
    rw [hpc] at h
    simp only [Option.pure_def, Option.bind_eq_bind, Option.some_bind] at h
    cases hsp : s.splitHands with
    | none => rw [hsp] at h; simp at h
    | some hs0 =>
      rw [hsp] at h
      simp only [Option.some_bind] at h
      cases hga : hs0.get? s.activeHandIndex with
      | none => rw [hga] at h; simp at h
      | some hand =>
        rw [hga] at h
        simp only [Option.some_bind] at h
        generalize (if 21 < (calculateHandTotal (hand.cards ++ [c])).total
            then SplitStatus.bust
            else if (calculateHandTotal (hand.cards ++ [c])).total = 21
            then SplitStatus.stand else SplitStatus.playing) = st at h
        have hmem : ∀ hd ∈ hs0.set s.activeHandIndex
            { hand with cards := hand.cards ++ [c], status := st },
            0 ≤ hd.bet := by
          intro hd hm
          rcases List.mem_or_eq_of_mem_set hm with hm' | rfl
          · exact hinv hs0 hsp hd hm'
          · exact hinv hs0 hsp hand (List.get?_mem hga)
        split_ifs at h with hst
        · injection h with he
          subst he
          have hai := advanceSplitHand_inv { s with
            deck := d,
            splitHands := some (hs0.set s.activeHandIndex
              { hand with cards := hand.cards ++ [c], status := st }) }
          refine ⟨hai.1, hai.2.1, ?_⟩
          intro hs hhs hd hm
          rw [hai.2.2] at hhs
          injection hhs with he2
          subst he2
          exact hmem hd hm
        · injection h with he
          subst he
          refine ⟨rfl, rfl, ?_⟩
          intro hs hhs hd hm
          injection hhs with he2
          subst he2
          exact hmem hd hm

/-- `splitStand` keeps chips and bet, and every surviving split hand
keeps a nonnegative bet. -/
theorem splitStand_inv (s s' : GameState) (h : splitStand s = some s')
    (hinv : ∀ hs, s.splitHands = some hs → ∀ hd ∈ hs, 0 ≤ hd.bet) :
    s'.chips = s.chips ∧ s'.bet = s.bet ∧
    (∀ hs, s'.splitHands = some hs → ∀ hd ∈ hs, 0 ≤ hd.bet) := by
  unfold splitStand at h
  cases hsp : s.splitHands with
  | none => rw [hsp] at h; simp at h
  | some hs0 =>
    rw [hsp] at h
    simp only [Option.pure_def, Option.bind_eq_bind, Option.some_bind] at h
    cases hga : hs0.get? s.activeHandIndex with
    | none => rw [hga] at h; simp at h
    | some hand =>
      rw [hga] at h
      simp only [Option.some_bind] at h
      injection h with he
      subst he
      have hai := advanceSplitHand_inv { s with
        splitHands := some (hs0.set s.activeHandIndex
          { hand with status := SplitStatus.stand }) }
      refine ⟨hai.1, hai.2.1, ?_⟩
      intro hs hhs hd hm
      rw [hai.2.2] at hhs
      injection hhs with he2
      subst he2
      rcases List.mem_or_eq_of_mem_set hm with hm' | rfl
      · exact hinv hs0 hsp hd hm'
      · exact hinv hs0 hsp hand (List.get?_mem hga)

/-- The settlement fold over split hands only adds nonnegative amounts to
the chips and keeps every settled hand's bet. -/
theorem settleFold_inv (dt : Nat) (hs : List SplitHand) :
    ∀ acc : SettleAcc, (∀ hd ∈ hs, 0 ≤ hd.bet) → 0 ≤ acc.chips →
    (∀ hd ∈ acc.hands, 0 ≤ hd.bet) →
    0 ≤ (hs.foldl (settleSplitStep dt) acc).chips ∧
    (∀ hd ∈ (hs.foldl (settleSplitStep dt) acc).hands, 0 ≤ hd.bet) := by
  induction hs with
  | nil => exact fun acc _ hch hhands => ⟨hch, hhands⟩
  | cons h t ih =>
    intro acc hbets hch hhands
    rw [List.foldl_cons]
    have hb0 : 0 ≤ h.bet := hbets h (List.mem_cons_self h t)
    apply ih
    · intro hd hm
      exact hbets hd (List.mem_cons_of_mem _ hm)
    · unfold settleSplitStep
      dsimp only
      split_ifs <;> omega
    · intro hd hm
      unfold settleSplitStep at hm
      dsimp only at hm
      rw [List.mem_append] at hm
      rcases hm with hm | hm
      · exact hhands hd hm
      · simp only [List.mem_cons, List.not_mem_nil, or_false] at hm
        subst hm
        exact hb0

/-- Settlement never drives chips negative (given nonnegative bets) and
keeps the bet and the split-hand bets. -/
theorem settleRound_inv (s : GameState) (hb : 0 ≤ s.bet) (hc : 0 ≤ s.chips)
    (hinv : ∀ hs, s.splitHands = some hs → ∀ hd ∈ hs, 0 ≤ hd.bet) :
    0 ≤ (settleRound s).chips ∧ (settleRound s).bet = s.bet ∧
    (∀ hs, (settleRound s).splitHands = some hs → ∀ hd ∈ hs, 0 ≤ hd.bet) := by
  unfold settleRound
  cases hsp : s.splitHands with
  | none =>
    dsimp only
    split_ifs <;>
      refine ⟨by (try dsimp only); omega, rfl, ?_⟩ <;>
      (intro hs hhs; cases hhs)
  | some hs0 =>
    unfold settleSplitRound
    rw [hsp]
    dsimp only
    have hf := settleFold_inv (calculateHandTotal s.dealerHand).total hs0
      { stats := s.stats, chips := s.chips, delta := 0, hands := [] }
      (hinv hs0 hsp) hc (by intro hd hm; exact absurd hm (List.not_mem_nil hd))
    refine ⟨hf.1, rfl, ?_⟩
    intro hs hhs hd hm
    injection hhs with he
    subst he
    exact hf.2 hd hm

/-- States reachable from the fresh 1000-chip session by engine
operations whose documented preconditions hold: bets only through an
accepting `placeBet`, double and split only when `getAvailableActions`
reports them available.  The reshuffle randomness of `dealInitialCards`
is quantified over the `fresh` replacement deck. -/
inductive Reach : GameState → Prop where
  | init : Reach createGameState
  | betStep (s s' : GameState) (a : JSNum) :
      Reach s → placeBet s a = BetResult.valid s' → Reach s'
  | dealStep (s s' : GameState) (fresh : List Card) :
      Reach s → dealInitialCards fresh s = some s' → Reach s'
  | bjStep (s : GameState) : Reach s → Reach (checkForBlackjack s)
  | hitStep (s s' : GameState) : Reach s → playerHit s = some s' → Reach s'
  | standStep (s : GameState) : Reach s → Reach (playerStand s)
  | doubleStep (s s' : GameState) (acts : Actions) :
      Reach s → getAvailableActions s = some acts → acts.double = true →
      playerDouble s = some s' → Reach s'
  | splitStep (s s' : GameState) (acts : Actions) :
      Reach s → getAvailableActions s = some acts → acts.split = true →
      playerSplit s = some s' → Reach s'
  | splitHitStep (s s' : GameState) :
      Reach s → splitHit s = some s' → Reach s'
  | splitStandStep (s s' : GameState) :
      Reach s → splitStand s = some s' → Reach s'
  | drawStep (s s' : GameState) :
      Reach s → dealerDrawOne s = some s' → Reach s'
  | settleStep (s : GameState) : Reach s → Reach (settleRound s)
  | gameOverStep (s : GameState) : Reach s → Reach (checkGameOver s)

/-- Every reachable state satisfies the bankroll invariant. -/
theorem reach_inv (s : GameState) (h : Reach s) : ChipsInv s := by
  induction h with
  | init =>
    refine ⟨by norm_num [createGameState], by norm_num [createGameState], ?_⟩
    intro hs heq
    simp [createGameState] at heq
  | betStep s s' a hr hv ih =>
    obtain ⟨h1, h2, _, h4⟩ := placeBet_valid_inv s a s' hv
    exact ⟨h1, h2, by rw [h4]; exact ih.2.2⟩
  | dealStep s s' fresh hr hd ih =>
    obtain ⟨h1, h2, h3⟩ := dealInitialCards_inv fresh s s' hd
    exact ⟨by rw [h1]; exact ih.1, by rw [h2]; exact ih.2.1,
      by rw [h3]; exact ih.2.2⟩
  | bjStep s hr ih =>
    obtain ⟨h1, h2, h3⟩ := checkForBlackjack_inv s ih.2.1 ih.1
    exact ⟨h1, by rw [h2]; exact ih.2.1, by rw [h3]; exact ih.2.2⟩
  | hitStep s s' hr hh ih =>
    obtain ⟨h1, h2, h3⟩ := playerHit_inv s s' hh
    exact ⟨by rw [h1]; exact ih.1, by rw [h2]; exact ih.2.1,
      by rw [h3]; exact ih.2.2⟩
  | standStep s hr ih =>
    exact ⟨ih.1, ih.2.1, ih.2.2⟩
  | doubleStep s s' acts hr hav hd hpd ih =>
    have hcb := (avail_requires_chips s acts hav).1 hd
    obtain ⟨h1, h2, h3⟩ := playerDouble_inv s s' hpd hcb ih.2.1
    exact ⟨h1, h2, by rw [h3]; exact ih.2.2⟩
  | splitStep s s' acts hr hav hd hps ih =>
    have hcb := (avail_requires_chips s acts hav).2 hd
    obtain ⟨h1, h2, h3⟩ := playerSplit_inv s s' hps hcb ih.2.1
    exact ⟨h1, by rw [h2]; exact ih.2.1, h3⟩
  | splitHitStep s s' hr hh ih =>
    obtain ⟨h1, h2, h3⟩ := splitHit_inv s s' hh ih.2.2
    exact ⟨by rw [h1]; exact ih.1, by rw [h2]; exact ih.2.1, h3⟩
  | splitStandStep s s' hr hh ih =>
    obtain ⟨h1, h2, h3⟩ := splitStand_inv s s' hh ih.2.2
    exact ⟨by rw [h1]; exact ih.1, by rw [h2]; exact ih.2.1, h3⟩
  | drawStep s s' hr hh ih =>
    obtain ⟨h1, h2, h3⟩ := dealerDrawOne_inv s s' hh
    exact ⟨by rw [h1]; exact ih.1, by rw [h2]; exact ih.2.1,
      by rw [h3]; exact ih.2.2⟩
  | settleStep s hr ih =>
    obtain ⟨h1, h2, h3⟩ := settleRound_inv s ih.2.1 ih.1 ih.2.2
    exact ⟨h1, by rw [h2]; exact ih.2.1, h3⟩
  | gameOverStep s hr ih =>
    obtain ⟨h1, h2, h3⟩ := checkGameOver_inv s
    exact ⟨by rw [h1]; exact ih.1, by rw [h2]; exact ih.2.1,
      by rw [h3]; exact ih.2.2⟩

/-- C7: along every run from the initial 1000-chip state in which bets go
through `placeBet` and double/split are invoked only when
`getAvailableActions` reports them available, the chips never go
negative; and an accepted bet never exceeds the chips held before it was
placed. -/
theorem chips_nonneg_spec :
    (∀ s : GameState, Reach s → 0 ≤ s.chips) ∧
    (∀ (s : GameState) (a : JSNum) (s' : GameState),
      placeBet s a = BetResult.valid s' → s'.bet ≤ s.chips) :=
  ⟨fun s h => (reach_inv s h).1,
   fun s a s' h => (placeBet_valid_inv s a s' h).2.2.1⟩

/-- Witness for C7: the fresh state is reachable with nonnegative chips,
and its accepted 100-chip bet stays within the 1000 chips held. -/
theorem chips_nonneg_spec_witness :
    (0 : Int) ≤ createGameState.chips ∧
    ({ createGameState with
       bet := 100, chips := 900, phase := Phase.playing } : GameState).bet ≤
      createGameState.chips :=
  ⟨chips_nonneg_spec.1 createGameState Reach.init,
   chips_nonneg_spec.2 createGameState (JSNum.num 100)
     { createGameState with
       bet := 100, chips := 900, phase := Phase.playing } (by decide)⟩

end Blackjack
